import Mathlib

/-!
Verification of the health-stats-repro harness.

The repository is a small Go program (three revisions: `main.go` and two
revisions embedded in `unnamed/part_000`) that reproduces a Docker daemon
defect.  Its one concurrent component is the stats fan-in collector
`logStatsForContainers`: one forwarding goroutine per container receives
snapshots from that container's stream channel and forwards each into a
single shared unbuffered channel `statsChan`; one merge loop receives from
`statsChan` and writes each non-nil snapshot to the output sink, until the
shared context is cancelled.

We embed the collector as a labeled transition system whose labels are the
scheduler's choices: a forwarding task receiving a value from its stream
(`recv`), observing stream closure (`close`), observing cancellation
(`fwdCancel`), the rendezvous of a blocked send with the merge loop's
receive (`deliver`), cancellation firing (`fire`), and the merge loop
observing cancellation (`mergeCancel`).  The channel is unbuffered, so a
forwarding task that has taken a value from its stream is blocked in
`statsChan <- stat` (status `sending`) until the merge loop receives it.
Go's `select` picks among ready cases nondeterministically, so `recv`,
`close` and `deliver` stay enabled after cancellation fires; only
`fwdCancel` and `mergeCancel` require the cancel flag.

The sequential parts (`stopAndCheckContainer`, `main`'s exit codes,
`failOnError`, `logFiles`, the merge and event loops in isolation, and the
timeout constants) are embedded as pure functions.
-/

namespace LogStats

/-- Status of one per-container forwarding goroutine
(the closure spawned per container in `logStatsForContainers`). -/
inductive FwdStatus where
  | idle                       -- blocked in `select` on ctx.Done / contStats
  | sending (v : Option Nat)   -- received `v` from contStats, blocked in `statsChan <- stat`
  | closed                     -- contStats closed: logged "no longer streaming" and returned
  | cancelled                  -- returned via the ctx.Done branch
deriving DecidableEq, Repr

/-- State of `logStatsForContainers` with `n` containers: each forwarding
task's status, the undelivered remainder of each container's stream, the
cancellation flag of the shared context, whether the merge loop has
returned, the records written to the output sink (tagged with the index of
the container whose stream produced them), and the indices for which a
"no longer streaming" line was logged, in order. -/
structure State (n : Nat) where
  fwd : Fin n → FwdStatus
  rest : Fin n → List (Option Nat)
  canceled : Bool
  mergeDone : Bool
  writes : List (Fin n × Option Nat)
  closeLogs : List (Fin n)
deriving DecidableEq

/-- Scheduler choices for the collector's tasks. -/
inductive Label (n : Nat) where
  | fire                   -- the shared context is cancelled
  | recv (i : Fin n)       -- forwarder i's select takes `stat, ok := <-contStats` with ok = true
  | close (i : Fin n)      -- forwarder i's select sees contStats closed (ok = false)
  | fwdCancel (i : Fin n)  -- forwarder i's select takes <-ctx.Done()
  | deliver (i : Fin n)    -- forwarder i's pending `statsChan <- stat` rendezvous with the merge loop's receive
  | mergeCancel            -- the merge loop's select takes <-ctx.Done()
deriving DecidableEq

variable {n : Nat}

/-- One scheduler step.  A label whose task is not in a position to take
that step leaves the state unchanged (the choice is not enabled). -/
def step (s : State n) : Label n → State n
  | .fire => { s with canceled := true }
  | .recv i =>
    match s.fwd i with
    | .idle =>
      match s.rest i with
      | [] => s
      | v :: vs =>
        { s with fwd := Function.update s.fwd i (.sending v),
                 rest := Function.update s.rest i vs }
    | _ => s
  | .close i =>
    match s.fwd i with
    | .idle =>
      match s.rest i with
      | [] => { s with fwd := Function.update s.fwd i .closed,
                       closeLogs := s.closeLogs ++ [i] }
      | _ :: _ => s
    | _ => s
  | .fwdCancel i =>
    if s.canceled then
      match s.fwd i with
      | .idle => { s with fwd := Function.update s.fwd i .cancelled }
      | _ => s
    else s
  | .deliver i =>
    if s.mergeDone then s
    else
      match s.fwd i with
      | .sending v =>
        { s with fwd := Function.update s.fwd i .idle,
                 writes := if v.isSome then s.writes ++ [(i, v)] else s.writes }
      | _ => s
  | .mergeCancel =>
    if s.canceled && !s.mergeDone then { s with mergeDone := true } else s

/-- Run a whole schedule. -/
def exec (s : State n) : List (Label n) → State n
  | [] => s
  | l :: ls => exec (step s l) ls

/-- Initial state of `logStatsForContainers`: every forwarding task at its
select, every stream untouched, nothing cancelled, nothing written. -/
def initState (streams : Fin n → List (Option Nat)) : State n :=
  { fwd := fun _ => .idle, rest := streams, canceled := false,
    mergeDone := false, writes := [], closeLogs := [] }

/-- A state the collector can reach from its initial state under some
schedule. -/
def Reachable (streams : Fin n → List (Option Nat)) (s : State n) : Prop :=
  ∃ ls, exec (initState streams) ls = s

/-- The records of a tagged write list that came from container `i`. -/
def tagFilter (w : List (Fin n × Option Nat)) (i : Fin n) : List (Option Nat) :=
  (w.filter (fun e => e.1 == i)).map Prod.snd

/-- The records the sink received from container `i`'s stream. -/
def writesFrom (s : State n) (i : Fin n) : List (Option Nat) :=
  tagFilter s.writes i

/-- A schedule that alternately lets forwarder `j` receive one value and
complete its forwarding rendezvous, once per element of `l`. -/
def drainSched (j : Fin n) : List (Option Nat) → List (Label n)
  | [] => []
  | _ :: vs => .recv j :: .deliver j :: drainSched j vs

end LogStats

/-- One input to the merge loop's `select` (the loop at the bottom of
`logStatsForContainers`, identical in `statsForContainers` in main.go):
either the shared context reports cancellation or a snapshot pointer is
received from the shared channel. -/
inductive MergeEv where
  | ctxDone
  | recv (v : Option Nat)
deriving DecidableEq

/-- The sequence of records the merge loop writes with
`fmt.Fprintf(out, "%#v\n", stat)` when fed a sequence of select inputs:
it returns on ctx.Done, skips nil snapshots (`if stat == nil  continue`),
and writes each other snapshot once. -/
def mergeLoopWrites : List MergeEv → List Nat
  | [] => []
  | .ctxDone :: _ => []
  | .recv none :: es => mergeLoopWrites es
  | .recv (some v) :: es => v :: mergeLoopWrites es

/-- One input to `logEvents`' select: cancellation or one event object. -/
inductive EventEv where
  | ctxDone
  | ev (e : Nat)
deriving DecidableEq

/-- The records `logEvents` writes with `fmt.Fprintf(out, "%#v", event)`:
one record per received event object, until cancellation is observed. -/
def logEventsWrites : List EventEv → List Nat
  | [] => []
  | .ctxDone :: _ => []
  | .ev e :: es => e :: logEventsWrites es

/-! ## Lifecycle verification and process glue (sequential code)

Errors returned by the external Docker API calls are opaque strings; a
context deadline expiring surfaces as such an error value.  `none` means
the call succeeded. -/

/-- Outcomes of the three external calls `stopAndCheckContainer` can make
for one container. -/
structure LifecycleResults where
  killErr : Option String
  inspectErr : Option String
  removeErr : Option String
deriving DecidableEq

/-- Compile-time flag `configStopContainer` of the current revision. -/
def configStopContainer : Bool := false

/-- Compile-time flag `configRemoveContainer` of the current revision. -/
def configRemoveContainer : Bool := false

/-- `stopAndCheckContainer` (part_000, second revision, lines 347-383):
optionally kill the container, but only log a kill error; inspect the
container and return its error if it fails; optionally remove the
container and return its error.  The returned value is what `main` uses
to decide whether the container is "affected". -/
def stopAndCheckContainer (cfgStop cfgRemove : Bool) (r : LifecycleResults) :
    Option String :=
  -- `if configStopContainer  ...  KillContainer ... err only logged `
  let _killLogged := cfgStop && r.killErr.isSome
  match r.inspectErr with
  | some e => some e
  | none => if cfgRemove then r.removeErr else none

/-- Description of one external API call as issued by the harness: its
operation name, the timeout (seconds) carried by the `context` attached to
the call, if any, and the API-level stop grace period parameter, if any. -/
structure ApiCall where
  op : String
  ctxTimeoutSecs : Option Nat
  apiStopTimeoutSecs : Option Nat
deriving DecidableEq

/-- `callTimeoutSecs` constant of the second revision (part_000 line 268). -/
def callTimeoutSecs : Nat := 15

/-- `callTimeoutSecs` constant of the first revision (part_000 line 23). -/
def callTimeoutSecsV1 : Nat := 10

/-- The API calls issued by the second revision's `stopAndCheckContainer`:
an optional `KillContainer` with a `context.WithTimeout(callTimeoutSecs)`
context, an `InspectContainerWithContext` with such a context, and an
optional `RemoveContainer` with no context. -/
def stopAndCheckCalls (cfgStop cfgRemove : Bool) : List ApiCall :=
  (if cfgStop then [⟨"kill", some callTimeoutSecs, none⟩] else []) ++
  [⟨"inspect", some callTimeoutSecs, none⟩] ++
  (if cfgRemove then [⟨"remove", none, none⟩] else [])

/-- The API calls issued by the first revision's `stopAndCheckContainer`
(part_000 lines 117-138): `StopContainer(id, callTimeoutSecs)` whose
numeric argument is the API stop grace period, with no context attached;
`InspectContainerWithContext` with a `callTimeoutSecs`-second context; and
`RemoveContainer` with no context. -/
def stopAndCheckCallsV1 : List ApiCall :=
  [⟨"stop", none, some callTimeoutSecsV1⟩,
   ⟨"inspect", some callTimeoutSecsV1, none⟩,
   ⟨"remove", none, none⟩]

/-- `failOnError` (part_000 lines 487-492): on an error, log it and exit
the process with code 1; otherwise continue.  The result is the exit code
it forces, if any. -/
def failOnError (err : Option String) : Option Nat :=
  match err with
  | some _ => some 1
  | none => none

/-- Outcomes of the setup calls `main` makes before the observation
window, in program order. -/
structure SetupResults where
  clientErr : Option String
  buildErr : Option String
  create1Err : Option String
  create2Err : Option String
  start1Err : Option String
  start2Err : Option String
deriving DecidableEq

/-- Result of a run of the second revision's `main`: the process exit
code, the lines printed to standard output for affected containers, and
the log files it opened. -/
structure MainResult where
  exitCode : Nat
  printed : List String
  filesOpened : List String
deriving DecidableEq

/-- The tail of the second revision's `main` (part_000 lines 329-345):
each container is checked with `stopAndCheckContainer` and error results
are collected into `affected`; a non-empty `affected` list prints one
`# docker inspect <id>` line per affected container and exits 2;
otherwise `main` returns and the process exits 0. -/
def mainVerdict (id1 id2 : String) (r1 r2 : LifecycleResults) : MainResult :=
  let affected :=
    ([(id1, r1), (id2, r2)]).filter
      (fun c => (stopAndCheckContainer configStopContainer
                    configRemoveContainer c.2).isSome)
  if affected.length ≠ 0 then
    ⟨2, affected.map (fun c => "# docker inspect " ++ c.1), []⟩
  else
    ⟨0, [], []⟩

/-- `main` of the second revision (part_000 lines 283-345): every setup
error goes through `failOnError` (exit 1; a `StartContainer` failure for
the second container first runs `stopAndCheckContainer` on the first);
after the observation window `mainVerdict` decides the outcome.  This
revision's `main` opens no log files. -/
def mainRun (su : SetupResults) (id1 id2 : String)
    (r1 r2 : LifecycleResults) : MainResult :=
  match failOnError su.clientErr with
  | some c => ⟨c, [], []⟩
  | none =>
  match failOnError su.buildErr with
  | some c => ⟨c, [], []⟩
  | none =>
  match failOnError su.create1Err with
  | some c => ⟨c, [], []⟩
  | none =>
  match failOnError su.create2Err with
  | some c => ⟨c, [], []⟩
  | none =>
  match failOnError su.start1Err with
  | some c => ⟨c, [], []⟩
  | none =>
  match failOnError su.start2Err with
  | some c =>
    -- `stopAndCheckContainer(cl, cont1)` runs for its side effects, then exit 1
    let _ := stopAndCheckContainer configStopContainer configRemoveContainer r1
    ⟨c, [], []⟩
  | none => mainVerdict id1 id2 r1 r2

/-- File names opened by `logFiles` (part_000 first revision, lines
199-214; identical inline in main.go lines 54-65): a stats log and an
events log, both qualified by the RFC3339 start timestamp, each opened
with `O_CREATE|O_WRONLY` and handed to a single sequential writer. -/
def logFilesNames (stamp : String) : List String :=
  ["statsout-" ++ stamp, "eventsout-" ++ stamp]

/-- Exit behavior of `logFiles`: each of the two opens goes through
`failOnError`, so the first failing open exits the process with code 1. -/
def logFilesExit (statsOpenErr eventsOpenErr : Option String) : Option Nat :=
  match failOnError statsOpenErr with
  | some c => some c
  | none => failOnError eventsOpenErr

/-! ## Lemmas about the collector transition system -/

namespace LogStats

variable {n : Nat}

lemma tagFilter_append (w : List (Fin n × Option Nat)) (j : Fin n) (v : Option Nat)
    (i : Fin n) :
    tagFilter (w ++ [(j, v)]) i = tagFilter w i ++ if j = i then [v] else [] := by
  unfold tagFilter
  rw [List.filter_append, List.map_append]
  by_cases h : j = i
  · simp [h, List.filter]
  · have hb : (j == i) = false := beq_eq_false_iff_ne.mpr h
    simp [List.filter, hb, h]

lemma step_mergeDone (s : State n) (l : Label n) (h : s.mergeDone = true) :
    (step s l).mergeDone = true ∧ (step s l).writes = s.writes := by
  cases l <;> simp only [step] <;> (repeat' split) <;> simp_all

lemma step_sending_frozen (s : State n) (l : Label n) (i : Fin n) (v : Option Nat)
    (hm : s.mergeDone = true) (hf : s.fwd i = .sending v) :
    (step s l).fwd i = .sending v := by
  have hne : ∀ (j : Fin n) (st : FwdStatus), s.fwd j = .idle →
      Function.update s.fwd j st i = .sending v := by
    intro j st hj
    rcases eq_or_ne i j with rfl | hij
    · rw [hf] at hj; cases hj
    · rw [Function.update_noteq hij]; exact hf
  cases l with
  | fire => exact hf
  | recv j =>
    simp only [step]
    split
    next x hj =>
      split
      next => exact hf
      next => exact hne j _ hj
    next => exact hf
  | close j =>
    simp only [step]
    split
    next x hj =>
      split
      next => exact hne j _ hj
      next => exact hf
    next => exact hf
  | fwdCancel j =>
    simp only [step]
    split
    · split
      next x hj => exact hne j _ hj
      next => exact hf
    · exact hf
  | deliver j => simp only [step, hm, if_true]; exact hf
  | mergeCancel => simp only [step, hm, Bool.not_true, Bool.and_false, if_neg]; exact hf

lemma exec_append (s : State n) (ls1 ls2 : List (Label n)) :
    exec s (ls1 ++ ls2) = exec (exec s ls1) ls2 := by
  induction ls1 generalizing s with
  | nil => rfl
  | cons l ls ih => simp [exec, ih]

lemma exec_mergeDone (s : State n) (ls : List (Label n)) (h : s.mergeDone = true) :
    (exec s ls).mergeDone = true ∧ (exec s ls).writes = s.writes := by
  induction ls generalizing s with
  | nil => exact ⟨h, rfl⟩
  | cons l ls ih =>
    have h1 := step_mergeDone s l h
    have h2 := ih (step s l) h1.1
    exact ⟨h2.1, h2.2.trans h1.2⟩

lemma exec_sending_frozen (s : State n) (ls : List (Label n)) (i : Fin n)
    (v : Option Nat) (hm : s.mergeDone = true) (hf : s.fwd i = .sending v) :
    (exec s ls).fwd i = .sending v := by
  induction ls generalizing s with
  | nil => exact hf
  | cons l ls ih =>
    exact ih (step s l) (step_mergeDone s l hm).1 (step_sending_frozen s l i v hm hf)

end LogStats

namespace LogStats

/-- The non-nil snapshots of a stream segment, in order: exactly the ones
the merge loop's nil check lets through to the sink. -/
def someOnly (l : List (Option Nat)) : List (Option Nat) :=
  l.filter (fun v => v.isSome)

lemma someOnly_append (a b : List (Option Nat)) :
    someOnly (a ++ b) = someOnly a ++ someOnly b :=
  List.filter_append a b

/-- Per-container invariant relating one source stream `st` to the
forwarding task's status `f`, the undelivered remainder `r` and the
records `w` the sink has received from this container: some prefix of the
stream has been taken from the source, the sink holds exactly the non-nil
values of the delivered part of that prefix in stream order, and a task
blocked sending holds exactly the last taken element. -/
def streamInv (st : List (Option Nat)) (f : FwdStatus) (r : List (Option Nat))
    (w : List (Option Nat)) : Prop :=
  ∃ k, r = st.drop k ∧
    ((f = .idle ∨ f = .cancelled) → w = someOnly (st.take k)) ∧
    (∀ v, f = .sending v → ∃ k0, k = k0 + 1 ∧ st[k0]? = some v ∧
      w = someOnly (st.take k0)) ∧
    (f = .closed → st.length ≤ k ∧ w = someOnly (st.take k))

lemma streamInv_start (st : List (Option Nat)) : streamInv st .idle st [] := by
  refine ⟨0, by simp, fun _ => by simp [someOnly], ?_, ?_⟩
  · intro v hv
    exact absurd hv (by simp)
  · intro hc
    exact absurd hc (by simp)

lemma streamInv_recv {st : List (Option Nat)} {v : Option Nat}
    {vs : List (Option Nat)} {w : List (Option Nat)}
    (h : streamInv st .idle (v :: vs) w) : streamInv st (.sending v) vs w := by
  obtain ⟨k, hr, hi, -, -⟩ := h
  refine ⟨k + 1, ?_, ?_, ?_, ?_⟩
  · have h1 : (st.drop k).drop 1 = st.drop (k + 1) := List.drop_drop 1 k st
    rw [← h1, ← hr]
    simp
  · intro hv
    exact absurd hv (by simp)
  · intro v' hv'
    have hvv : v' = v := by
      cases hv'
      rfl
    subst hvv
    refine ⟨k, rfl, ?_, hi (Or.inl rfl)⟩
    have h2 : (st.drop k)[0]? = st[k + 0]? := List.getElem?_drop st k 0
    rw [← hr] at h2
    simpa using h2.symm
  · intro hc
    exact absurd hc (by simp)

lemma streamInv_close {st : List (Option Nat)} {w : List (Option Nat)}
    (h : streamInv st .idle [] w) : streamInv st .closed [] w := by
  obtain ⟨k, hr, hi, -, -⟩ := h
  refine ⟨k, hr, ?_, ?_, fun _ => ?_⟩
  · intro hv
    rcases hv with hv | hv <;> exact absurd hv (by simp)
  · intro v hv
    exact absurd hv (by simp)
  · exact ⟨List.drop_eq_nil_iff.mp hr.symm, hi (Or.inl rfl)⟩

lemma streamInv_fwdCancel {st : List (Option Nat)} {r w : List (Option Nat)}
    (h : streamInv st .idle r w) : streamInv st .cancelled r w := by
  obtain ⟨k, hr, hi, -, -⟩ := h
  refine ⟨k, hr, fun _ => hi (Or.inl rfl), ?_, ?_⟩
  · intro v hv
    exact absurd hv (by simp)
  · intro hc
    exact absurd hc (by simp)

lemma streamInv_deliver {st : List (Option Nat)} {v : Option Nat}
    {r w : List (Option Nat)} (h : streamInv st (.sending v) r w) :
    streamInv st .idle r (w ++ if v.isSome then [v] else []) := by
  obtain ⟨k, hr, -, hs, -⟩ := h
  obtain ⟨k0, hk, hget, hw⟩ := hs v rfl
  subst hk
  refine ⟨k0 + 1, hr, fun _ => ?_, ?_, ?_⟩
  · rw [List.take_succ, hget, someOnly_append, hw]
    cases v <;> simp [someOnly]
  · intro v' hv'
    exact absurd hv' (by simp)
  · intro hc
    exact absurd hc (by simp)

/-- The per-container invariant, at container `i` of a collector state. -/
def ContInv (streams : Fin n → List (Option Nat)) (s : State n) (i : Fin n) :
    Prop :=
  streamInv (streams i) (s.fwd i) (s.rest i) (writesFrom s i)

/-- Global collector invariant: every container satisfies its stream
invariant, the merge loop only returns after cancellation fired, and the
sink never received a nil snapshot. -/
def Inv (streams : Fin n → List (Option Nat)) (s : State n) : Prop :=
  (∀ i, ContInv streams s i) ∧
  (s.mergeDone = true → s.canceled = true) ∧
  (∀ e ∈ s.writes, e.2.isSome = true)

lemma inv_init (streams : Fin n → List (Option Nat)) :
    Inv streams (initState streams) := by
  refine ⟨fun i => streamInv_start (streams i), ?_, ?_⟩
  · intro h
    exact absurd h (by simp [initState])
  · intro e he
    exact absurd he (by simp [initState])

end LogStats

namespace LogStats

variable {n : Nat}

lemma tagFilter_deliver (w : List (Fin n × Option Nat)) (j : Fin n) (v : Option Nat) :
    tagFilter (if v.isSome then w ++ [(j, v)] else w) j
      = tagFilter w j ++ (if v.isSome then [v] else []) := by
  cases hv : v.isSome
  · simp
  · simp [tagFilter_append]

lemma tagFilter_deliver_ne (w : List (Fin n × Option Nat)) (j : Fin n)
    (v : Option Nat) (i : Fin n) (hij : i ≠ j) :
    tagFilter (if v.isSome then w ++ [(j, v)] else w) i = tagFilter w i := by
  cases hv : v.isSome
  · simp
  · simp [tagFilter_append, if_neg (Ne.symm hij)]

lemma inv_step (streams : Fin n → List (Option Nat)) (s : State n) (l : Label n)
    (h : Inv streams s) : Inv streams (step s l) := by
  obtain ⟨h1, h2, h3⟩ := h
  cases l with
  | fire => exact ⟨fun i => h1 i, fun _ => rfl, h3⟩
  | recv j =>
    simp only [step]
    split
    next x hj =>
      split
      next => exact ⟨h1, h2, h3⟩
      next x v vs hr =>
        refine ⟨?_, h2, h3⟩
        intro i
        show streamInv (streams i) (Function.update s.fwd j (.sending v) i)
          (Function.update s.rest j vs i) (tagFilter s.writes i)
        rcases eq_or_ne i j with rfl | hij
        · rw [Function.update_same, Function.update_same]
          have hj' := h1 i
          unfold ContInv writesFrom at hj'
          rw [hj, hr] at hj'
          exact streamInv_recv hj'
        · rw [Function.update_noteq hij, Function.update_noteq hij]
          exact h1 i
    next => exact ⟨h1, h2, h3⟩
  | close j =>
    simp only [step]
    split
    next x hj =>
      split
      next x hr =>
        refine ⟨?_, h2, h3⟩
        intro i
        show streamInv (streams i) (Function.update s.fwd j .closed i)
          (s.rest i) (tagFilter s.writes i)
        rcases eq_or_ne i j with rfl | hij
        · rw [Function.update_same, hr]
          have hj' := h1 i
          unfold ContInv writesFrom at hj'
          rw [hj, hr] at hj'
          exact streamInv_close hj'
        · rw [Function.update_noteq hij]
          exact h1 i
      next => exact ⟨h1, h2, h3⟩
    next => exact ⟨h1, h2, h3⟩
  | fwdCancel j =>
    simp only [step]
    split
    · split
      next x hj =>
        refine ⟨?_, h2, h3⟩
        intro i
        show streamInv (streams i) (Function.update s.fwd j .cancelled i)
          (s.rest i) (tagFilter s.writes i)
        rcases eq_or_ne i j with rfl | hij
        · rw [Function.update_same]
          have hj' := h1 i
          unfold ContInv writesFrom at hj'
          rw [hj] at hj'
          exact streamInv_fwdCancel hj'
        · rw [Function.update_noteq hij]
          exact h1 i
      next => exact ⟨h1, h2, h3⟩
    · exact ⟨h1, h2, h3⟩
  | deliver j =>
    simp only [step]
    split
    next => exact ⟨h1, h2, h3⟩
    next hmd =>
      split
      next x v hj =>
        refine ⟨?_, h2, ?_⟩
        · intro i
          show streamInv (streams i) (Function.update s.fwd j .idle i) (s.rest i)
            (tagFilter (if v.isSome then s.writes ++ [(j, v)] else s.writes) i)
          rcases eq_or_ne i j with rfl | hij
          · rw [Function.update_same, tagFilter_deliver]
            have hj' := h1 i
            unfold ContInv writesFrom at hj'
            rw [hj] at hj'
            exact streamInv_deliver hj'
          · rw [Function.update_noteq hij, tagFilter_deliver_ne s.writes j v i hij]
            exact h1 i
        · intro e he
          show e.2.isSome = true
          cases hv : v.isSome
          · rw [hv] at he
            simp only [if_neg] at he
            exact h3 e (by simpa using he)
          · rw [hv] at he
            simp only [if_pos] at he
            rcases (by simpa using he : e ∈ s.writes ∨ e = (j, v)) with hm | hm
            · exact h3 e hm
            · have : e = (j, v) := by simpa using hm
              rw [this]
              exact hv
      next => exact ⟨h1, h2, h3⟩
  | mergeCancel =>
    simp only [step]
    split
    next hcond =>
      have hc : s.canceled = true := by
        cases hb : s.canceled
        · rw [hb] at hcond; simp at hcond
        · rfl
      exact ⟨h1, fun _ => hc, h3⟩
    next => exact ⟨h1, h2, h3⟩

lemma inv_exec (streams : Fin n → List (Option Nat)) (s : State n)
    (ls : List (Label n)) (h : Inv streams s) : Inv streams (exec s ls) := by
  induction ls generalizing s with
  | nil => exact h
  | cons l ls ih => exact ih (step s l) (inv_step streams s l h)

lemma inv_reachable (streams : Fin n → List (Option Nat)) (s : State n)
    (h : Reachable streams s) : Inv streams s := by
  obtain ⟨ls, rfl⟩ := h
  exact inv_exec streams (initState streams) ls (inv_init streams)

end LogStats

namespace LogStats

variable {n : Nat}

lemma step_recv_eq (s : State n) (j : Fin n) (v : Option Nat) (vs : List (Option Nat))
    (hf : s.fwd j = .idle) (hr : s.rest j = v :: vs) :
    step s (.recv j) = { s with fwd := Function.update s.fwd j (.sending v),
                                rest := Function.update s.rest j vs } := by
  simp [step, hf, hr]

lemma step_deliver_eq (s : State n) (j : Fin n) (v : Option Nat)
    (hm : s.mergeDone = false) (hf : s.fwd j = .sending v) :
    step s (.deliver j)
      = { s with fwd := Function.update s.fwd j .idle,
                 writes := if v.isSome then s.writes ++ [(j, v)] else s.writes } := by
  simp [step, hm, hf]

lemma step_close_eq (s : State n) (j : Fin n)
    (hf : s.fwd j = .idle) (hr : s.rest j = []) :
    step s (.close j) = { s with fwd := Function.update s.fwd j .closed,
                                 closeLogs := s.closeLogs ++ [j] } := by
  simp [step, hf, hr]

lemma step_mergeCancel_eq (s : State n) (hc : s.canceled = true)
    (hm : s.mergeDone = false) :
    step s .mergeCancel = { s with mergeDone := true } := by
  simp [step, hc, hm]

lemma someOnly_cons (v : Option Nat) (vs : List (Option Nat)) :
    someOnly (v :: vs) = (if v.isSome then [v] else []) ++ someOnly vs := by
  cases v <;> simp [someOnly]

lemma exec_drain (j : Fin n) (l : List (Option Nat)) :
    ∀ s : State n, s.fwd j = .idle → s.rest j = l → s.mergeDone = false →
    (exec s (drainSched j l)).fwd j = .idle ∧
    (exec s (drainSched j l)).rest j = [] ∧
    (exec s (drainSched j l)).mergeDone = false ∧
    (exec s (drainSched j l)).canceled = s.canceled ∧
    (exec s (drainSched j l)).closeLogs = s.closeLogs ∧
    (exec s (drainSched j l)).writes
      = s.writes ++ (someOnly l).map (fun v => (j, v)) ∧
    (∀ i, i ≠ j → (exec s (drainSched j l)).fwd i = s.fwd i ∧
      (exec s (drainSched j l)).rest i = s.rest i) := by
  induction l with
  | nil =>
    intro s hf hr hm
    refine ⟨hf, hr, hm, rfl, rfl, by simp [drainSched, exec, someOnly], ?_⟩
    intro i _
    exact ⟨rfl, rfl⟩
  | cons v vs ih =>
    intro s hf hr hm
    have e1 : exec s (drainSched j (v :: vs))
        = exec (step (step s (.recv j)) (.deliver j)) (drainSched j vs) := rfl
    have hs2 : step (step s (.recv j)) (.deliver j)
        = { s with fwd := Function.update s.fwd j .idle,
                   rest := Function.update s.rest j vs,
                   writes := if v.isSome then s.writes ++ [(j, v)] else s.writes } := by
      rw [step_recv_eq s j v vs hf hr]
      rw [step_deliver_eq { s with fwd := Function.update s.fwd j (.sending v),
                                   rest := Function.update s.rest j vs } j v hm (by simp)]
      simp [Function.update_idem]
    rw [hs2] at e1
    obtain ⟨g1, g2, g3, g4, g5, g6, g7⟩ :=
      ih { s with fwd := Function.update s.fwd j .idle,
                  rest := Function.update s.rest j vs,
                  writes := if v.isSome then s.writes ++ [(j, v)] else s.writes }
        (by simp) (by simp) hm
    rw [e1]
    refine ⟨g1, g2, g3, g4, g5, ?_, ?_⟩
    · rw [g6, someOnly_cons]
      cases hv : v.isSome <;> simp [hv, List.append_assoc]
    · intro i hij
      have hgi := g7 i hij
      refine ⟨?_, ?_⟩
      · rw [hgi.1]
        exact Function.update_noteq hij _ _
      · rw [hgi.2]
        exact Function.update_noteq hij _ _

end LogStats

namespace LogStats

variable {n : Nat}

lemma mem_tagFilter {w : List (Fin n × Option Nat)} {e : Fin n × Option Nat}
    (he : e ∈ w) : e.2 ∈ tagFilter w e.1 := by
  unfold tagFilter
  exact List.mem_map.mpr ⟨e, List.mem_filter.mpr ⟨he, by simp⟩, rfl⟩

lemma someOnly_take_subset (st : List (Option Nat)) (k : Nat) :
    someOnly (st.take k) ⊆ st := by
  intro x hx
  exact List.take_subset k st (List.mem_of_mem_filter hx)

lemma streamInv_writes_prefix {st r w : List (Option Nat)} {f : FwdStatus}
    (h : streamInv st f r w) : ∃ k, w = someOnly (st.take k) := by
  obtain ⟨k, -, hi, hs, hc⟩ := h
  cases f with
  | idle => exact ⟨k, hi (Or.inl rfl)⟩
  | cancelled => exact ⟨k, hi (Or.inr rfl)⟩
  | sending v =>
    obtain ⟨k0, -, -, hw⟩ := hs v rfl
    exact ⟨k0, hw⟩
  | closed => exact ⟨k, (hc rfl).2⟩

end LogStats

lemma mergeLoopWrites_eq (es : List MergeEv) :
    mergeLoopWrites es
      = (es.takeWhile (fun e => e != MergeEv.ctxDone)).filterMap
          (fun e => match e with | MergeEv.recv (some v) => some v | _ => none) := by
  induction es with
  | nil => rfl
  | cons e es ih =>
    cases e with
    | ctxDone => simp [mergeLoopWrites, List.takeWhile_cons]
    | recv v => cases v <;> simp [mergeLoopWrites, List.takeWhile_cons, ih]

lemma mergeLoopWrites_mem {es : List MergeEv} {v : Nat}
    (h : v ∈ mergeLoopWrites es) : MergeEv.recv (some v) ∈ es := by
  induction es with
  | nil => cases h
  | cons e es ih =>
    cases e with
    | ctxDone => cases h
    | recv w =>
      cases w with
      | none => exact List.mem_cons_of_mem _ (ih h)
      | some a =>
        rcases List.mem_cons.mp h with rfl | h2
        · exact List.mem_cons_self _ _
        · exact List.mem_cons_of_mem _ (ih h2)

lemma logEventsWrites_mem {evs : List EventEv} {x : Nat}
    (h : x ∈ logEventsWrites evs) : EventEv.ev x ∈ evs := by
  induction evs with
  | nil => cases h
  | cons e es ih =>
    cases e with
    | ctxDone => cases h
    | ev a =>
      rcases List.mem_cons.mp h with rfl | h2
      · exact List.mem_cons_self _ _
      · exact List.mem_cons_of_mem _ (ih h2)

/-! ## Concrete scenarios -/

/-- One healthy container whose stream delivers a single snapshot and closes. -/
def streamsOne : Fin 1 → List (Option Nat) := ![[some 7]]

/-- Schedule: the forwarder receives the snapshot, then cancellation fires,
then the merge loop observes cancellation and returns. -/
def cxSched : List (LogStats.Label 1) := [.recv 0, .fire, .mergeCancel]

/-- The state after the forwarder has taken the snapshot but before
cancellation fires. -/
def cxPre : LogStats.State 1 :=
  LogStats.exec (LogStats.initState streamsOne) [.recv 0]

/-- The state after the merge loop observed cancellation while the
forwarder was still blocked sending the snapshot. -/
def cxFinal : LogStats.State 1 :=
  LogStats.exec (LogStats.initState streamsOne) cxSched

/-- The state with the snapshot taken and cancellation fired, merge loop
still running. -/
def c3State : LogStats.State 1 :=
  LogStats.exec (LogStats.initState streamsOne) [.recv 0, .fire]

/-- Two containers with 5 snapshots each (the spec's 2 x 5 scenario). -/
def streamsTen : Fin 2 → List (Option Nat) :=
  ![[some 1, some 2, some 3, some 4, some 5],
    [some 6, some 7, some 8, some 9, some 10]]

/-- A schedule that drains both containers completely, closes both
streams, then fires cancellation and lets the merge loop return. -/
def schedTen : List (LogStats.Label 2) :=
  LogStats.drainSched 0 (streamsTen 0) ++ [.close 0]
    ++ LogStats.drainSched 1 (streamsTen 1) ++ [.close 1]
    ++ [.fire, .mergeCancel]

/-- The final state of the 2 x 5 scenario. -/
def stateTen : LogStats.State 2 :=
  LogStats.exec (LogStats.initState streamsTen) schedTen

/-- Two containers with one snapshot each. -/
def streamsAB : Fin 2 → List (Option Nat) := ![[some 1], [some 2]]

/-- Container 0 first. -/
def schedAB1 : List (LogStats.Label 2) := [.recv 0, .deliver 0, .recv 1, .deliver 1]

/-- Container 1 first. -/
def schedAB2 : List (LogStats.Label 2) := [.recv 1, .deliver 1, .recv 0, .deliver 0]

/-- Container 0's stream is already exhausted; container 1 still has a
snapshot to deliver. -/
def streamsC4 : Fin 2 → List (Option Nat) := ![[], [some 9]]

/-- One container whose stream delivers a nil snapshot (spurious wakeup)
followed by a real one. -/
def streamsNil : Fin 1 → List (Option Nat) := ![[none, some 3]]

/-- The state after draining that stream through the forwarder and the
merge loop. -/
def stateNil : LogStats.State 1 :=
  LogStats.exec (LogStats.initState streamsNil) (LogStats.drainSched 0 [none, some 3])

/-! ## Claims -/

/-- Claim C1 (counterexample): the claim that the collector writes every
snapshot produced by a healthy source before cancellation is false as
stated.  With one healthy container whose stream delivers one snapshot,
there is an execution in which the forwarding task has taken the snapshot
from its stream strictly before cancellation fires (`cxPre`: not yet
cancelled, stream already empty, snapshot in the forwarder's hand), yet
after cancellation fires and the merge loop observes it (`cxFinal`) the
sink has received nothing, and no continuation of the execution ever
writes it. -/
theorem c1_counterexample :
    cxPre.canceled = false ∧ cxPre.rest 0 = [] ∧
    cxPre.fwd 0 = .sending (some 7) ∧
    cxFinal.writes = [] ∧ cxFinal.canceled = true ∧ cxFinal.mergeDone = true ∧
    cxFinal.fwd 0 = .sending (some 7) ∧
    (∀ ls : List (LogStats.Label 1), (LogStats.exec cxFinal ls).writes = []) := by
  refine ⟨by decide, by decide, by decide, by decide, by decide, by decide,
    by decide, ?_⟩
  intro ls
  have h := LogStats.exec_mergeDone cxFinal ls (by decide)
  exact h.2.trans (by decide)

/-- Claim C1 (amended): in every reachable collector state, (a) if every
forwarding task has terminated because its stream closed (the healthy 2x5
scenario with cancellation firing at t = 10s, after the sources are done),
then the sink holds exactly the non-nil snapshots of every container's
stream; and (b) once the merge loop has observed cancellation, no further
record is ever written.  Snapshots still in flight when cancellation is
observed may be lost, as the counterexample shows. -/
theorem c1_collector_writes (n : Nat) (streams : Fin n → List (Option Nat))
    (s : LogStats.State n) (h : LogStats.Reachable streams s) :
    ((∀ i, s.fwd i = .closed) →
      ∀ i, LogStats.writesFrom s i = LogStats.someOnly (streams i)) ∧
    (s.mergeDone = true → ∀ ls, (LogStats.exec s ls).writes = s.writes) := by
  have hin := LogStats.inv_reachable streams s h
  constructor
  · intro hall i
    obtain ⟨k, hr, hi, hs, hc⟩ := hin.1 i
    obtain ⟨hlen, hw⟩ := hc (hall i)
    rw [hw, List.take_of_length_le hlen]
  · intro hm ls
    exact (LogStats.exec_mergeDone s ls hm).2

/-- Claim C1 (witness): the 2x5 scenario run to quiescence before
cancellation: both forwarders terminated by stream closure, both streams
fully written (5 records each, 10 in total), two "no longer streaming"
log lines. -/
theorem c1_witness :
    stateTen.fwd 0 = .closed ∧ stateTen.fwd 1 = .closed ∧
    LogStats.writesFrom stateTen 0 = [some 1, some 2, some 3, some 4, some 5] ∧
    LogStats.writesFrom stateTen 1 = [some 6, some 7, some 8, some 9, some 10] ∧
    stateTen.writes.length = 10 ∧ stateTen.closeLogs.length = 2 ∧
    stateTen.mergeDone = true := by
  have h := c1_collector_writes 2 streamsTen stateTen ⟨schedTen, rfl⟩
  refine ⟨by decide, by decide, ?_, ?_, by decide, by decide, by decide⟩
  · exact (h.1 (by decide) 0).trans (by decide)
  · exact (h.1 (by decide) 1).trans (by decide)

/-- Claim C3: once the shared cancellation signal has fired and the merge
loop has not yet returned, the merge loop's ctx.Done branch is a single
enabled step whatever the forwarding tasks' states; taking it changes
nothing but the merge loop's status (no pending snapshot is drained), and
afterwards no record is ever written again and any forwarder blocked
sending stays blocked. -/
theorem c3_merge_cancel (n : Nat) (streams : Fin n → List (Option Nat))
    (s : LogStats.State n) (h : LogStats.Reachable streams s)
    (hc : s.canceled = true) (hm : s.mergeDone = false) :
    LogStats.step s .mergeCancel = { s with mergeDone := true } ∧
    (LogStats.step s .mergeCancel).writes = s.writes ∧
    (∀ i, (LogStats.step s .mergeCancel).fwd i = s.fwd i) ∧
    (∀ ls, (LogStats.exec (LogStats.step s .mergeCancel) ls).writes = s.writes) ∧
    (∀ ls i v, s.fwd i = .sending v →
      (LogStats.exec (LogStats.step s .mergeCancel) ls).fwd i = .sending v) := by
  have h1 := LogStats.step_mergeCancel_eq s hc hm
  refine ⟨h1, by rw [h1], fun i => by rw [h1], ?_, ?_⟩
  · intro ls
    have h2 := LogStats.exec_mergeDone (LogStats.step s .mergeCancel) ls (by rw [h1])
    rw [h2.2, h1]
  · intro ls i v hv
    exact LogStats.exec_sending_frozen _ ls i v (by rw [h1]) (by rw [h1]; exact hv)

/-- Claim C3 (witness): concrete instance with the forwarder still blocked
sending: the merge loop returns in one step, drains nothing, and the
pending snapshot is never delivered afterwards. -/
theorem c3_witness :
    c3State.canceled = true ∧ c3State.mergeDone = false ∧
    (LogStats.step c3State .mergeCancel).writes = c3State.writes ∧
    (LogStats.exec (LogStats.step c3State .mergeCancel) [.deliver 0]).writes
      = c3State.writes ∧
    (LogStats.exec (LogStats.step c3State .mergeCancel) [.deliver 0]).fwd 0
      = .sending (some 7) := by
  have h := c3_merge_cancel 1 streamsOne c3State ⟨[.recv 0, .fire], rfl⟩
    (by decide) (by decide)
  exact ⟨by decide, by decide, h.2.1, h.2.2.2.1 [.deliver 0],
    h.2.2.2.2 [.deliver 0] 0 (some 7) (by decide)⟩

/-- Claim C4: when a container's stream has ended (its channel is closed),
the closure step logs "no longer streaming" for exactly that container and
terminates only that forwarding task: every other task's status, every
stream remainder, the merge loop and the sink are untouched; and any other
container still idle can afterwards deliver its whole remaining stream to
the sink via the drain schedule. -/
theorem c4_close_isolation (n : Nat) (streams : Fin n → List (Option Nat))
    (s : LogStats.State n) (i : Fin n) (h : LogStats.Reachable streams s)
    (hf : s.fwd i = .idle) (hr : s.rest i = []) :
    LogStats.step s (.close i)
      = { s with fwd := Function.update s.fwd i .closed,
                 closeLogs := s.closeLogs ++ [i] } ∧
    (LogStats.step s (.close i)).fwd i = .closed ∧
    (∀ j, j ≠ i → (LogStats.step s (.close i)).fwd j = s.fwd j) ∧
    (LogStats.step s (.close i)).rest = s.rest ∧
    (LogStats.step s (.close i)).writes = s.writes ∧
    (LogStats.step s (.close i)).mergeDone = s.mergeDone ∧
    (∀ j, j ≠ i → s.fwd j = .idle → s.mergeDone = false →
      (LogStats.exec (LogStats.step s (.close i))
          (LogStats.drainSched j (s.rest j))).writes
        = s.writes ++ (LogStats.someOnly (s.rest j)).map (fun v => (j, v))) := by
  have h1 := LogStats.step_close_eq s i hf hr
  refine ⟨h1, by rw [h1]; simp, fun j hj => by rw [h1]; exact Function.update_noteq hj _ _,
    by rw [h1], by rw [h1], by rw [h1], ?_⟩
  intro j hj hfj hmd
  have hd := LogStats.exec_drain j (s.rest j) (LogStats.step s (.close i))
    (by rw [h1]; simpa [Function.update_noteq hj] using hfj)
    (by rw [h1]) (by rw [h1]; exact hmd)
  rw [hd.2.2.2.2.2.1, h1]

/-- Claim C4 (witness): container 0's stream closes; the log line appears,
container 1's forwarder is untouched and still delivers its snapshot. -/
theorem c4_witness :
    (LogStats.step (LogStats.initState streamsC4) (.close 0)).closeLogs = [0] ∧
    (LogStats.step (LogStats.initState streamsC4) (.close 0)).fwd 0 = .closed ∧
    (LogStats.step (LogStats.initState streamsC4) (.close 0)).fwd 1 = .idle ∧
    (LogStats.exec (LogStats.step (LogStats.initState streamsC4) (.close 0))
        (LogStats.drainSched 1 ((LogStats.initState streamsC4).rest 1))).writes
      = [((1 : Fin 2), some 9)] := by
  have h := c4_close_isolation 2 streamsC4 (LogStats.initState streamsC4) 0
    ⟨[], rfl⟩ (by decide) (by decide)
  refine ⟨by decide, h.2.1, by decide, ?_⟩
  exact (h.2.2.2.2.2.2 1 (by decide) (by decide) (by decide)).trans (by decide)

/-- Claim C5: nil snapshots are never written.  In every reachable
collector state no record in the sink is nil (the forwarders of the
part_000 revisions forward nils into the shared channel, but the merge
loop's nil check discards them); and the merge loop in isolation (the
common loop shape of `logStatsForContainers` and `statsForContainers`)
writes exactly the non-nil snapshots received before cancellation is
observed, so a nil receive never produces a record. -/
theorem c5_nil_discarded (n : Nat) (streams : Fin n → List (Option Nat))
    (s : LogStats.State n) (h : LogStats.Reachable streams s) :
    (∀ e ∈ s.writes, e.2 ≠ none) ∧
    (∀ es, mergeLoopWrites es
      = (es.takeWhile (fun e => e != MergeEv.ctxDone)).filterMap
          (fun e => match e with | MergeEv.recv (some v) => some v | _ => none)) := by
  have hin := LogStats.inv_reachable streams s h
  constructor
  · intro e he
    have h2 := hin.2.2 e he
    exact Option.isSome_iff_ne_none.mp h2
  · exact mergeLoopWrites_eq

/-- Claim C5 (witness): a stream delivering a nil then a real snapshot
results in exactly one record, and the nil is not in the sink. -/
theorem c5_witness :
    stateNil.writes = [((0 : Fin 1), some 3)] ∧
    (((0 : Fin 1), (some 3 : Option Nat)).2 ≠ none) ∧
    mergeLoopWrites [MergeEv.recv none, MergeEv.recv (some 3), MergeEv.ctxDone,
      MergeEv.recv (some 9)] = [3] := by
  have h := c5_nil_discarded 1 streamsNil stateNil
    ⟨LogStats.drainSched 0 [none, some 3], rfl⟩
  exact ⟨by decide, h.1 (0, some 3) (by decide), by decide⟩

/-- Claim C10: a forwarding task blocked sending on the shared channel
after the merge loop has returned never terminates: under every
continuation of the schedule it stays blocked in the send, the merge loop
stays returned, and nothing further is written — the send on `statsChan`
has no cancellation alternative, so the goroutine leaks for the remainder
of the process even if its stream has already closed. -/
theorem c10_forwarder_leak (n : Nat) (streams : Fin n → List (Option Nat))
    (s : LogStats.State n) (i : Fin n) (v : Option Nat)
    (ls : List (LogStats.Label n)) (h : LogStats.Reachable streams s)
    (hm : s.mergeDone = true) (hf : s.fwd i = .sending v) :
    (LogStats.exec s ls).fwd i = .sending v ∧
    (LogStats.exec s ls).mergeDone = true ∧
    (LogStats.exec s ls).writes = s.writes := by
  have h1 := LogStats.exec_sending_frozen s ls i v hm hf
  have h2 := LogStats.exec_mergeDone s ls hm
  exact ⟨h1, h2.1, h2.2⟩

/-- Claim C10 (witness): the concrete leaked state — stream empty
(subscription would have closed), merge loop returned — and the forwarder
is still blocked sending after any further scheduling, including attempts
to deliver, close or cancel it. -/
theorem c10_witness :
    cxFinal.mergeDone = true ∧ cxFinal.fwd 0 = .sending (some 7) ∧
    cxFinal.rest 0 = [] ∧
    (LogStats.exec cxFinal [.deliver 0, .close 0, .fwdCancel 0, .recv 0,
        .mergeCancel]).fwd 0 = .sending (some 7) := by
  have h := c10_forwarder_leak 1 streamsOne cxFinal 0 (some 7)
    [.deliver 0, .close 0, .fwdCancel 0, .recv 0, .mergeCancel]
    ⟨cxSched, rfl⟩ (by decide) (by decide)
  exact ⟨by decide, by decide, by decide, h.1⟩

/-- Claim C2: every record in the sink is attributed to exactly one
container (it is tagged with the container whose stream produced it, and
its value occurs in that container's stream); for each container the sink
holds exactly the non-nil snapshots of a prefix of that container's
stream, in stream order — i.e. each snapshot the merge loop received is
written exactly once and per-container order is preserved; and
cross-container order is not guaranteed: the same two streams admit
executions writing the two containers' snapshots in either order. -/
theorem c2_attribution_order (n : Nat) (streams : Fin n → List (Option Nat))
    (s : LogStats.State n) (h : LogStats.Reachable streams s) :
    (∀ e ∈ s.writes, e.2 ∈ streams e.1) ∧
    (∀ i, ∃ k, LogStats.writesFrom s i
      = LogStats.someOnly ((streams i).take k)) ∧
    (LogStats.exec (LogStats.initState streamsAB) schedAB1).writes
      = [(0, some 1), (1, some 2)] ∧
    (LogStats.exec (LogStats.initState streamsAB) schedAB2).writes
      = [(1, some 2), (0, some 1)] := by
  have hin := LogStats.inv_reachable streams s h
  refine ⟨?_, ?_, by decide, by decide⟩
  · intro e he
    have h1 : e.2 ∈ LogStats.writesFrom s e.1 := LogStats.mem_tagFilter he
    obtain ⟨k, hk⟩ := LogStats.streamInv_writes_prefix (hin.1 e.1)
    rw [hk] at h1
    exact LogStats.someOnly_take_subset (streams e.1) k h1
  · intro i
    exact LogStats.streamInv_writes_prefix (hin.1 i)

/-- Claim C2 (witness): in the completed 2x5 run, the first record of
container 0 is attributed to container 0 and its value occurs in container
0's stream; container 1's records are exactly the non-nil values of the
prefix of length 5 of its stream. -/
theorem c2_witness :
    ((some 1 : Option Nat) ∈ streamsTen 0) ∧
    LogStats.writesFrom stateTen 1
      = LogStats.someOnly ((streamsTen 1).take 5) := by
  have h := c2_attribution_order 2 streamsTen stateTen ⟨schedTen, rfl⟩
  exact ⟨h.1 ((0 : Fin 2), some 1) (by decide), by decide⟩

lemma mainRun_setup_err (su : SetupResults) (id1 id2 : String)
    (r1 r2 : LifecycleResults)
    (h : ¬(su.clientErr = none ∧ su.buildErr = none ∧ su.create1Err = none ∧
      su.create2Err = none ∧ su.start1Err = none ∧ su.start2Err = none)) :
    mainRun su id1 id2 r1 r2 = ⟨1, [], []⟩ := by
  obtain ⟨c0, b0, cr1, cr2, s1, s2⟩ := su
  cases c0 <;> cases b0 <;> cases cr1 <;> cases cr2 <;> cases s1 <;> cases s2 <;>
    simp_all [mainRun, failOnError]

lemma mainRun_ok (su : SetupResults) (id1 id2 : String) (r1 r2 : LifecycleResults)
    (h1 : su.clientErr = none) (h2 : su.buildErr = none)
    (h3 : su.create1Err = none) (h4 : su.create2Err = none)
    (h5 : su.start1Err = none) (h6 : su.start2Err = none) :
    mainRun su id1 id2 r1 r2 = mainVerdict id1 id2 r1 r2 := by
  simp [mainRun, failOnError, h1, h2, h3, h4, h5, h6]

lemma mainVerdict_char (id1 id2 : String) (r1 r2 : LifecycleResults) :
    ((mainVerdict id1 id2 r1 r2).exitCode = 0
      ↔ stopAndCheckContainer configStopContainer configRemoveContainer r1 = none ∧
        stopAndCheckContainer configStopContainer configRemoveContainer r2 = none) ∧
    (¬(stopAndCheckContainer configStopContainer configRemoveContainer r1 = none ∧
        stopAndCheckContainer configStopContainer configRemoveContainer r2 = none) →
      (mainVerdict id1 id2 r1 r2).exitCode = 2) ∧
    (stopAndCheckContainer configStopContainer configRemoveContainer r1 ≠ none →
      "# docker inspect " ++ id1 ∈ (mainVerdict id1 id2 r1 r2).printed) ∧
    (stopAndCheckContainer configStopContainer configRemoveContainer r2 ≠ none →
      "# docker inspect " ++ id2 ∈ (mainVerdict id1 id2 r1 r2).printed) ∧
    (mainVerdict id1 id2 r1 r2).filesOpened = [] := by
  cases hx1 : stopAndCheckContainer configStopContainer configRemoveContainer r1 <;>
    cases hx2 : stopAndCheckContainer configStopContainer configRemoveContainer r2 <;>
    simp [mainVerdict, hx1, hx2]

/-- Claim C6 (counterexample): an error from the optional stop/kill call
does not mark the container affected.  With both optional calls enabled,
a failing kill call (e.g. its 15s context timing out) followed by a
successful inspect and remove yields no error from
`stopAndCheckContainer`, so `main` does not count the container as
affected — contradicting the claim that any erroring lifecycle call marks
it affected. -/
theorem c6_counterexample :
    (LifecycleResults.mk (some "kill timed out") none none).killErr.isSome
      = true ∧
    stopAndCheckContainer true true
      (LifecycleResults.mk (some "kill timed out") none none) = none :=
  ⟨rfl, rfl⟩

/-- Claim C6 (amended): the verdict of `stopAndCheckContainer` is decided
by the inspect call and, when removal is enabled, the remove call: the
container is unaffected iff inspect succeeded and (if enabled) remove
succeeded.  A stop/kill error (including a context-timeout expiry) is
only logged: the verdict is invariant under the kill call's outcome. -/
theorem c6_affected_marking (cfgStop cfgRemove : Bool) (r : LifecycleResults) :
    (stopAndCheckContainer cfgStop cfgRemove r = none
      ↔ r.inspectErr = none ∧ (cfgRemove = true → r.removeErr = none)) ∧
    (∀ k, stopAndCheckContainer cfgStop cfgRemove
        { r with killErr := k } = stopAndCheckContainer cfgStop cfgRemove r) := by
  constructor
  · cases hi : r.inspectErr <;> cases cfgRemove <;>
      simp [stopAndCheckContainer, hi]
  · intro k
    rfl

/-- Claim C6 (amended, witness): a failing inspect marks the container
affected; the kill outcome never changes the verdict. -/
theorem c6_witness :
    stopAndCheckContainer true true
        (LifecycleResults.mk (some "x") none none)
      = stopAndCheckContainer true true (LifecycleResults.mk none none none) ∧
    ¬(stopAndCheckContainer false false
        (LifecycleResults.mk none (some "inspect hung") none) = none) := by
  constructor
  · exact (c6_affected_marking true true
      (LifecycleResults.mk none none none)).2 (some "x")
  · intro h0
    have h := ((c6_affected_marking false false
      (LifecycleResults.mk none (some "inspect hung") none)).1.mp h0).1
    cases h

/-- Claim C7: the process exits 0 iff no setup call failed and neither
container failed lifecycle verification; any setup failure (client
initialisation, image build, container create or start — and, in the
revisions that open log files, a log-file open failure via `failOnError`)
exits 1; when setup succeeds and at least one container fails
verification the process exits 2 and a `# docker inspect <id>` line is
printed to standard output for each affected container. -/
theorem c7_exit_codes (su : SetupResults) (id1 id2 : String)
    (r1 r2 : LifecycleResults) (e1 e2 : Option String) :
    ((mainRun su id1 id2 r1 r2).exitCode = 0
      ↔ su.clientErr = none ∧ su.buildErr = none ∧ su.create1Err = none ∧
        su.create2Err = none ∧ su.start1Err = none ∧ su.start2Err = none ∧
        stopAndCheckContainer configStopContainer configRemoveContainer r1
          = none ∧
        stopAndCheckContainer configStopContainer configRemoveContainer r2
          = none) ∧
    (¬(su.clientErr = none ∧ su.buildErr = none ∧ su.create1Err = none ∧
        su.create2Err = none ∧ su.start1Err = none ∧ su.start2Err = none) →
      (mainRun su id1 id2 r1 r2).exitCode = 1) ∧
    (su.clientErr = none → su.buildErr = none → su.create1Err = none →
      su.create2Err = none → su.start1Err = none → su.start2Err = none →
      ¬(stopAndCheckContainer configStopContainer configRemoveContainer r1
          = none ∧
        stopAndCheckContainer configStopContainer configRemoveContainer r2
          = none) →
      (mainRun su id1 id2 r1 r2).exitCode = 2) ∧
    (su.clientErr = none → su.buildErr = none → su.create1Err = none →
      su.create2Err = none → su.start1Err = none → su.start2Err = none →
      stopAndCheckContainer configStopContainer configRemoveContainer r1
          ≠ none →
      "# docker inspect " ++ id1 ∈ (mainRun su id1 id2 r1 r2).printed) ∧
    (su.clientErr = none → su.buildErr = none → su.create1Err = none →
      su.create2Err = none → su.start1Err = none → su.start2Err = none →
      stopAndCheckContainer configStopContainer configRemoveContainer r2
          ≠ none →
      "# docker inspect " ++ id2 ∈ (mainRun su id1 id2 r1 r2).printed) ∧
    ((e1 ≠ none ∨ e2 ≠ none) → logFilesExit e1 e2 = some 1) := by
  have hlf : (e1 ≠ none ∨ e2 ≠ none) → logFilesExit e1 e2 = some 1 := by
    cases e1 <;> cases e2 <;> simp [logFilesExit, failOnError]
  have hv := mainVerdict_char id1 id2 r1 r2
  by_cases hall : su.clientErr = none ∧ su.buildErr = none ∧
      su.create1Err = none ∧ su.create2Err = none ∧ su.start1Err = none ∧
      su.start2Err = none
  · obtain ⟨h1, h2, h3, h4, h5, h6⟩ := hall
    have hok := mainRun_ok su id1 id2 r1 r2 h1 h2 h3 h4 h5 h6
    rw [hok]
    refine ⟨?_, ?_, ?_, ?_, ?_, hlf⟩
    · rw [hv.1]
      simp [h1, h2, h3, h4, h5, h6]
    · intro hne
      exact absurd ⟨h1, h2, h3, h4, h5, h6⟩ hne
    · intro _ _ _ _ _ _ hne
      exact hv.2.1 hne
    · intro _ _ _ _ _ _ hne
      exact hv.2.2.1 hne
    · intro _ _ _ _ _ _ hne
      exact hv.2.2.2.1 hne
  · have herr := mainRun_setup_err su id1 id2 r1 r2 hall
    rw [herr]
    refine ⟨?_, fun _ => rfl, ?_, ?_, ?_, hlf⟩
    · constructor
      · intro h0
        exact absurd h0 (by decide)
      · intro hr
        exact absurd ⟨hr.1, hr.2.1, hr.2.2.1, hr.2.2.2.1, hr.2.2.2.2.1,
          hr.2.2.2.2.2.1⟩ hall
    · intro h1 h2 h3 h4 h5 h6 _
      exact absurd ⟨h1, h2, h3, h4, h5, h6⟩ hall
    · intro h1 h2 h3 h4 h5 h6 _
      exact absurd ⟨h1, h2, h3, h4, h5, h6⟩ hall
    · intro h1 h2 h3 h4 h5 h6 _
      exact absurd ⟨h1, h2, h3, h4, h5, h6⟩ hall

/-- Claim C7 (witness): a run with a clean setup where container "aaa"
fails its inspect call within the observation teardown: exit code 2 and
its ready-to-run inspect command printed; a clean run with both checks
passing exits 0; a failed image build exits 1; a failed log-file open
forces exit 1. -/
theorem c7_witness :
    (mainRun (SetupResults.mk none none none none none none) "aaa" "bbb"
        (LifecycleResults.mk none (some "inspect timed out") none)
        (LifecycleResults.mk none none none)).exitCode = 2 ∧
    "# docker inspect aaa" ∈ (mainRun (SetupResults.mk none none none none none none)
        "aaa" "bbb" (LifecycleResults.mk none (some "inspect timed out") none)
        (LifecycleResults.mk none none none)).printed ∧
    (mainRun (SetupResults.mk none none none none none none) "aaa" "bbb"
        (LifecycleResults.mk none none none)
        (LifecycleResults.mk none none none)).exitCode = 0 ∧
    (mainRun (SetupResults.mk none (some "build failed") none none none none)
        "aaa" "bbb" (LifecycleResults.mk none none none)
        (LifecycleResults.mk none none none)).exitCode = 1 ∧
    logFilesExit (some "open failed") none = some 1 := by
  have h := c7_exit_codes (SetupResults.mk none none none none none none)
    "aaa" "bbb" (LifecycleResults.mk none (some "inspect timed out") none)
    (LifecycleResults.mk none none none) (some "open failed") none
  refine ⟨?_, ?_, by decide, by decide, h.2.2.2.2.2 (Or.inl (by decide))⟩
  · exact h.2.2.1 rfl rfl rfl rfl rfl rfl (by decide)
  · have hm := h.2.2.2.1 rfl rfl rfl rfl rfl rfl (by decide)
    simpa using hm

/-- Claim C8 (counterexample): not every revision issues the
post-observation calls with a 15-second context timeout.  In the first
revision `callTimeoutSecs` is 10: its inspect call carries a 10-second
context, and its stop call carries no cancellation context at all (the
10 is the API-level stop grace period parameter). -/
theorem c8_counterexample :
    callTimeoutSecsV1 = 10 ∧
    stopAndCheckCallsV1.get? 1 = some ⟨"inspect", some 10, none⟩ ∧
    (some (10 : Nat) ≠ some 15) ∧
    stopAndCheckCallsV1.get? 0 = some ⟨"stop", none, some 10⟩ ∧
    ((none : Option Nat) ≠ some 15) := by
  refine ⟨rfl, rfl, by decide, rfl, by decide⟩

/-- Claim C8 (amended): in the current (second) revision,
`callTimeoutSecs` is 15 and every stop/kill and inspect call issued by
`stopAndCheckContainer` carries a cancellation context with that explicit
15-second timeout (the optional remove call carries none); the first
revision instead uses 10 seconds and attaches no context to its stop
call. -/
theorem c8_call_timeouts (cfgStop cfgRemove : Bool) :
    callTimeoutSecs = 15 ∧
    (∀ c ∈ stopAndCheckCalls cfgStop cfgRemove,
      (c.op = "kill" ∨ c.op = "inspect") →
        c.ctxTimeoutSecs = some callTimeoutSecs) := by
  cases cfgStop <;> cases cfgRemove <;> exact ⟨rfl, by decide⟩

/-- Claim C8 (witness): with both optional calls enabled, the kill and
inspect calls of the current revision carry the 15-second context. -/
theorem c8_witness :
    (ApiCall.mk "kill" (some callTimeoutSecs) none).ctxTimeoutSecs = some 15 ∧
    (ApiCall.mk "inspect" (some callTimeoutSecs) none).ctxTimeoutSecs
      = some 15 := by
  have h := c8_call_timeouts true true
  constructor
  · rw [h.2 (ApiCall.mk "kill" (some callTimeoutSecs) none) (by decide)
      (Or.inl rfl), h.1]
  · rw [h.2 (ApiCall.mk "inspect" (some callTimeoutSecs) none) (by decide)
      (Or.inr rfl), h.1]

/-- Claim C9 (counterexample): not every run creates two output
artifacts.  The second revision's `main` (part_000 lines 283-345) never
opens a log file — it does not stream stats or events at all — so a clean
run of it creates zero output artifacts, not two. -/
theorem c9_counterexample :
    (mainRun (SetupResults.mk none none none none none none) "a" "b"
        (LifecycleResults.mk none none none)
        (LifecycleResults.mk none none none)).filesOpened = [] ∧
    ([] : List String).length ≠ 2 :=
  ⟨rfl, by decide⟩

/-- Claim C9 (amended): the revisions that log (main.go and the first
part_000 revision) create exactly two output artifacts via `logFiles`,
with timestamp-qualified names `statsout-<stamp>` and `eventsout-<stamp>`,
written by single sequential writers; every record of the statistics log
is the `%#v` dump of exactly one non-nil snapshot received before
cancellation, and every record of the events log is the dump of exactly
one received event.  The second revision's `main` opens none. -/
theorem c9_log_artifacts (stamp : String) (es : List MergeEv)
    (evs : List EventEv) :
    logFilesNames stamp = ["statsout-" ++ stamp, "eventsout-" ++ stamp] ∧
    (logFilesNames stamp).length = 2 ∧
    (∀ v ∈ mergeLoopWrites es, MergeEv.recv (some v) ∈ es) ∧
    (∀ x ∈ logEventsWrites evs, EventEv.ev x ∈ evs) ∧
    (∀ su id1 id2 r1 r2, (mainRun su id1 id2 r1 r2).filesOpened = []) := by
  refine ⟨rfl, rfl, fun v hv => mergeLoopWrites_mem hv,
    fun x hx => logEventsWrites_mem hx, ?_⟩
  intro su id1 id2 r1 r2
  by_cases hall : su.clientErr = none ∧ su.buildErr = none ∧
      su.create1Err = none ∧ su.create2Err = none ∧ su.start1Err = none ∧
      su.start2Err = none
  · rw [mainRun_ok su id1 id2 r1 r2 hall.1 hall.2.1 hall.2.2.1 hall.2.2.2.1
      hall.2.2.2.2.1 hall.2.2.2.2.2]
    exact (mainVerdict_char id1 id2 r1 r2).2.2.2.2
  · rw [mainRun_setup_err su id1 id2 r1 r2 hall]

/-- Claim C9 (witness): a concrete stamp and record streams: the two
artifact names, a statistics record traced back to its received snapshot,
and an events record traced back to its received event. -/
theorem c9_witness :
    logFilesNames "2018-03-21T00:00:00Z"
      = ["statsout-2018-03-21T00:00:00Z", "eventsout-2018-03-21T00:00:00Z"] ∧
    MergeEv.recv (some 5)
      ∈ [MergeEv.recv none, MergeEv.recv (some 5), MergeEv.ctxDone] ∧
    EventEv.ev 4 ∈ [EventEv.ev 4, EventEv.ctxDone] := by
  have h := c9_log_artifacts "2018-03-21T00:00:00Z"
    [MergeEv.recv none, MergeEv.recv (some 5), MergeEv.ctxDone]
    [EventEv.ev 4, EventEv.ctxDone]
  exact ⟨h.1, h.2.2.1 5 (by decide), h.2.2.2.1 4 (by decide)⟩
